import Mathlib

/-!
# BlueCat provider (`provider/bluecat.go`)

A shallow embedding of the BlueCat DNS provider: the login exchange
(`getAuthToken`), the state reader (`Records`), the change applier
(`submitChanges`) and the facade entry `ApplyChanges`.

Go strings that are only stored or compared are `String`; the strings the two
regular expressions of `getAuthToken` work on are `List Char`.  A Go `error`
result is an `Option` (`none` is `nil`), a `(value, error)` result is a pair.
The remote backend is an explicit state `σ` threaded through every call.
-/

namespace BlueCat

/-! ## Data model -/

/-- Constant `blueCatDefaultTTL` ("10 minutes default timeout if not configured using flags"). -/
def blueCatDefaultTTL : Int := 600

/-- Constant `blueCatRestAPIPrefix`. -/
def blueCatRestAPIPrefix : String := "Services/REST/v1"

/-- Struct `BlueCatProvider`.  `submitChanges` reads the dry-run flag as `p.dryRun`;
the struct declares it as `DryRun`, which is the field used here. -/
structure BlueCatProvider where
  Server : String
  AuthToken : String
  serverId : String
  parentId : String
  viewId : String
  InsecureFlag : Bool
  DryRun : Bool
  deriving DecidableEq, Repr

/-- Struct `BlueCatConfig`. -/
structure BlueCatConfig where
  Server : String
  Username : String
  Password : String
  InsecureFlag : Bool
  DryRun : Bool
  deriving DecidableEq, Repr

/-- Modelled from the spec: the type `endpoint.Endpoint` is not among the source
files.  The spec's data model makes an Endpoint the immutable value
{name, record type, targets, time-to-live}. -/
structure Endpoint where
  DNSName : String
  Targets : List String
  RecordType : String
  RecordTTL : Int
  deriving DecidableEq, Repr

/-- Modelled from the spec: the constructor `endpoint.NewEndpointWithTTL` is not
among the source files.  An Endpoint is the value made of the name, record type,
TTL and targets it is constructed from. -/
def NewEndpointWithTTL (dnsName recordType : String) (ttl : Int) (targets : List String) :
    Endpoint :=
  { DNSName := dnsName, Targets := targets, RecordType := recordType, RecordTTL := ttl }

/-- Struct `changes`: one requested mutation. -/
structure Change where
  Action : String
  Endpoint : Endpoint
  deriving DecidableEq, Repr

/-- Modelled from the spec: the backend's native record type is not among the
source files.  The source reads its fields `Domain`, `Type` (here `Typ`), `TTL` and `ShortAns`
(the spec: domain, type, TTL, answer list). -/
structure Record where
  Domain : String
  Typ : String
  TTL : Int
  ShortAns : List String
  deriving DecidableEq, Repr

/-- Modelled from the spec: the result of `GetZone`, of which the source reads the
field `Records`. -/
structure ZoneData where
  Records : List Record
  deriving DecidableEq, Repr

/-- Modelled from the spec: a Zone is {identifier, display name/suffix}. -/
structure Zone where
  id : String
  name : String
  deriving DecidableEq, Repr

/-- Modelled from the spec: `zone.String()`, the name under which the backend is
asked for the zone's records. -/
def Zone.String (z : Zone) : String := z.name

/-- The three mutating backend calls `submitChanges` can issue. -/
inductive Call where
  | CreateRecord (record : Record)
  | DeleteRecord (zoneName domain type : String)
  | UpdateRecord (record : Record)
  deriving DecidableEq, Repr

/-- The fields of one "Changing record." log line. -/
structure LogFields where
  record : String
  type : String
  ttl : Int
  action : String
  zone : String
  deriving DecidableEq, Repr

/-- What the provider acts on: the backend's state, the mutating calls issued so far
and the log lines written so far. -/
structure World (σ : Type) where
  backend : σ
  calls : List Call
  log : List LogFields

/-- The collaborators of the provider that are not among the source files, taken as
parameters: the zone directory (`zonesFiltered`), the backend client (`p.client`),
`supportedRecordType`, the planner helpers `ns1ChangesByZone` and `ns1BuildRecord`,
and the action constants.  `ns1ChangesByZone` returns a Go map; it is given as the
list of its (zone name, changes) entries in the order the `range` loop visits
them. -/
structure Deps (σ ε : Type) where
  zonesFiltered : σ → Except ε (List Zone) × σ
  GetZone : String → σ → Except ε ZoneData × σ
  CreateRecord : Record → σ → Option ε × σ
  DeleteRecord : String → String → String → σ → Option ε × σ
  UpdateRecord : Record → σ → Option ε × σ
  supportedRecordType : String → Bool
  ns1ChangesByZone : List Zone → List Change → List (String × List Change)
  ns1BuildRecord : String → Change → Record
  ns1Create : String
  ns1Delete : String
  ns1Update : String

variable {σ ε : Type}

/-! ## The change applier: `submitChanges` -/

/-- One call on `p.client`: the backend answers and moves to its next state, and the
call is recorded. -/
def World.issue (w : World σ) (c : Call) (f : σ → Option ε × σ) : Option ε × World σ :=
  ((f w.backend).1, { w with backend := (f w.backend).2, calls := w.calls ++ [c] })

/-- The log line written for a change. -/
def logFields (d : Deps σ ε) (zoneName : String) (change : Change) : LogFields :=
  { record := (d.ns1BuildRecord zoneName change).Domain
    type := (d.ns1BuildRecord zoneName change).Typ
    ttl := (d.ns1BuildRecord zoneName change).TTL
    action := change.Action
    zone := zoneName }

/-- The body of the inner loop of `submitChanges`: build the record, log it, and
unless `dryRun` is set dispatch on the action.  The result is the error that makes
`submitChanges` return (`none`: go on with the next change). -/
def applyChange (d : Deps σ ε) (p : BlueCatProvider) (zoneName : String) (change : Change)
    (w : World σ) : Option ε × World σ :=
  let record := d.ns1BuildRecord zoneName change
  let w1 : World σ := { w with log := w.log ++ [logFields d zoneName change] }
  if p.DryRun then (none, w1)
  else if change.Action = d.ns1Create then
    w1.issue (Call.CreateRecord record) (d.CreateRecord record)
  else if change.Action = d.ns1Delete then
    w1.issue (Call.DeleteRecord zoneName record.Domain record.Typ)
      (d.DeleteRecord zoneName record.Domain record.Typ)
  else if change.Action = d.ns1Update then
    w1.issue (Call.UpdateRecord record) (d.UpdateRecord record)
  else (none, w1)

/-- The inner loop `for _, change := range changes`, returning at the first error. -/
def zoneLoop (d : Deps σ ε) (p : BlueCatProvider) (zoneName : String) :
    List Change → World σ → Option ε × World σ
  | [], w => (none, w)
  | change :: rest, w =>
    match applyChange d p zoneName change w with
    | (some err, w1) => (some err, w1)
    | (none, w1) => zoneLoop d p zoneName rest w1

/-- The outer loop `for zoneName, changes := range changesByZone`. -/
def batchLoop (d : Deps σ ε) (p : BlueCatProvider) :
    List (String × List Change) → World σ → Option ε × World σ
  | [], w => (none, w)
  | (zoneName, changes) :: rest, w =>
    match zoneLoop d p zoneName changes w with
    | (some err, w1) => (some err, w1)
    | (none, w1) => batchLoop d p rest w1

/-- Method `BlueCatProvider.submitChanges`. -/
def submitChanges (d : Deps σ ε) (p : BlueCatProvider) (changes : List Change)
    (w : World σ) : Option ε × World σ :=
  if changes.length = 0 then (none, w)
  else
    match d.zonesFiltered w.backend with
    | (Except.error err, s) => (some err, { w with backend := s })
    | (Except.ok zones, s) =>
      batchLoop d p (d.ns1ChangesByZone zones changes) { w with backend := s }

/-- Method `BlueCatProvider.ApplyChanges`: the body is `return changes`; the value
handed back is the changeset it was given, and nothing else happens. -/
def ApplyChanges {χ : Type} (_d : Deps σ ε) (_p : BlueCatProvider) (changes : χ)
    (w : World σ) : χ × World σ :=
  (changes, w)

/-! ## The state reader: `Records` -/

/-- The inner loop of `Records` over one zone's records: a record of a supported
type appends one endpoint, any other record appends nothing. -/
def appendRecords (d : Deps σ ε) : List Record → List Endpoint → List Endpoint
  | [], endpoints => endpoints
  | record :: rest, endpoints =>
    if d.supportedRecordType record.Typ then
      appendRecords d rest
        (endpoints ++ [NewEndpointWithTTL record.Domain record.Typ record.TTL record.ShortAns])
    else appendRecords d rest endpoints

/-- The loop `for _, zone := range zones` of `Records`; a failing `GetZone` returns
`nil, err`. -/
def recordsLoop (d : Deps σ ε) : List Zone → List Endpoint → σ →
    (List Endpoint × Option ε) × σ
  | [], endpoints, s => ((endpoints, none), s)
  | zone :: rest, endpoints, s =>
    match d.GetZone zone.String s with
    | (Except.error err, s1) => (([], some err), s1)
    | (Except.ok zoneData, s1) => recordsLoop d rest (appendRecords d zoneData.Records endpoints) s1

/-- Method `BlueCatProvider.Records`. -/
def Records (d : Deps σ ε) (s : σ) : (List Endpoint × Option ε) × σ :=
  match d.zonesFiltered s with
  | (Except.error err, s1) => (([], some err), s1)
  | (Except.ok zones, s1) => recordsLoop d zones [] s1

/-! ## The login exchange: `getAuthToken` -/

/-- Class `\s` of Go's regexp syntax: tab, line feed, form feed, carriage return, space. -/
def isSpace (c : Char) : Bool :=
  c == '\t' || c == '\n' || c == '\x0c' || c == '\r' || c == ' '

/-- Class `\w` of Go's regexp syntax: `[0-9A-Za-z_]`. -/
def isWord (c : Char) : Bool :=
  ('0' ≤ c && c ≤ '9') || ('A' ≤ c && c ≤ 'Z') || ('a' ≤ c && c ≤ 'z') || c == '_'

/-- Class `[\w=]`. -/
def isWordEq (c : Char) : Bool := isWord c || c == '='

/-- Class `.` (no `s` flag): any character but the line feed. -/
def isDot (c : Char) : Bool := c != '\n'

/-- The pieces the two regular expressions of `getAuthToken` are made of: a literal
character, a greedy `X*` or `X+` over a character class, the two ends of capture
group 1, and the anchors `^` and `$` (no `m` flag: start and end of the text). -/
inductive Item where
  | lit (c : Char)
  | star (p : Char → Bool)
  | plus (p : Char → Bool)
  | gopen
  | gclose
  | bol
  | eol

/-- The literal characters of a string, as regular-expression items. -/
def lits (s : String) : List Item := s.toList.map Item.lit

/-- Pattern `^.*(BAMAuthToken:\s+[\w=]+)\s+.*$`. -/
def sessionToken : List Item :=
  [Item.bol, Item.star isDot, Item.gopen] ++ lits "BAMAuthToken:" ++
    [Item.plus isSpace, Item.plus isWordEq, Item.gclose, Item.plus isSpace, Item.star isDot,
      Item.eol]

/-- Pattern `Get https.*:\s+(.*)`. -/
def connErr : List Item :=
  lits "Get https" ++
    [Item.star isDot, Item.lit ':', Item.plus isSpace, Item.gopen, Item.star isDot, Item.gclose]

/-- Capture group 1 while a match is being built: whether the group is open, and the
text it holds. -/
structure Capture where
  active : Bool
  text : List Char

/-- Consumed text goes into the group while it is open. -/
def Capture.push (cap : Capture) (t : List Char) : Capture :=
  if cap.active then { cap with text := cap.text ++ t } else cap

/-- A greedy repetition tries the longest run first and gives characters back one
at a time: the first of `f n, f (n-1), ..., f 0` that succeeds. -/
def firstDown {α : Type} (f : Nat → Option α) : Nat → Option α
  | 0 => f 0
  | n + 1 =>
    match f (n + 1) with
    | some r => some r
    | none => firstDown f n

/-- The match a backtracking matcher finds first for the items at the head of `s`
(Go's regexp returns that match): the text of group 1 and the text left after the
match.  `bot` says whether `s` is the whole text. -/
def matchHere : List Item → Bool → List Char → Capture → Option (List Char × List Char)
  | [], _, s, cap => some (cap.text, s)
  | Item.lit c :: items, _, s, cap =>
    match s with
    | [] => none
    | d :: rest => if d = c then matchHere items false rest (cap.push [d]) else none
  | Item.star p :: items, bot, s, cap =>
    firstDown (fun k => matchHere items (bot && k == 0) (s.drop k) (cap.push (s.take k)))
      (s.takeWhile p).length
  | Item.plus p :: items, _, s, cap =>
    match (s.takeWhile p).length with
    | 0 => none
    | n + 1 =>
      firstDown (fun k => matchHere items false (s.drop (k + 1)) (cap.push (s.take (k + 1)))) n
  | Item.gopen :: items, bot, s, _ => matchHere items bot s { active := true, text := [] }
  | Item.gclose :: items, bot, s, cap => matchHere items bot s { cap with active := false }
  | Item.bol :: items, bot, s, cap => if bot then matchHere items bot s cap else none
  | Item.eol :: items, bot, s, cap => if s = [] then matchHere items bot s cap else none

/-- No group open, nothing captured. -/
def noCapture : Capture := { active := false, text := [] }

/-- The leftmost match: the first position of the text at which the items match.
The result is Go's submatch slice: empty when there is no match, else the matched
text followed by the text of group 1. -/
def findSubmatch (re : List Item) : Bool → List Char → List (List Char)
  | bot, [] =>
    match matchHere re bot [] noCapture with
    | some (g, _) => [[], g]
    | none => []
  | bot, c :: s =>
    match matchHere re bot (c :: s) noCapture with
    | some (g, rest) => [(c :: s).take ((c :: s).length - rest.length), g]
    | none => findSubmatch re false s

/-- Method `Regexp.FindStringSubmatch`. -/
def FindStringSubmatch (re : List Item) (s : List Char) : List (List Char) :=
  findSubmatch re true s

/-- The scan of `ReplaceAllString` with the template `${1}`: `skip` characters still
belong to the match just replaced; otherwise a match at the head is replaced by the
text of its group 1 and the scan goes on after it, and a character at which nothing
matches is copied.  A match of no characters puts group 1 before the character and
copies the character; `connErr` starts with a literal and has no such match. -/
def replaceAll (re : List Item) : Bool → List Char → Nat → List Char
  | _, [], _ => []
  | _, _ :: s, skip + 1 => replaceAll re false s skip
  | bot, c :: s, 0 =>
    match matchHere re bot (c :: s) noCapture with
    | some (g, rest) =>
      if (c :: s).length - rest.length = 0 then g ++ c :: replaceAll re false s 0
      else g ++ replaceAll re false s ((c :: s).length - rest.length - 1)
    | none => c :: replaceAll re false s 0

/-- Method `Regexp.ReplaceAllString` with the template `${1}`. -/
def ReplaceAllString (re : List Item) (src : List Char) : List Char :=
  replaceAll re true src 0

/-- The response of the HTTP client, as far as `getAuthToken` reads it: what
`resp.String()` and `resp.Body()` give. -/
structure Response where
  String : List Char
  Body : List Char

/-- The login URL `https://<server>/<restAPIPrefix>/login?username=<user>&password=<pass>`.
The constant `restAPIPrefix` the source names is not declared in it and is a
parameter. -/
def loginReq (restAPIPrefix server user pass : List Char) : List Char :=
  "https://".toList ++ server ++ "/".toList ++ restAPIPrefix ++ "/login?username=".toList ++
    user ++ "&password=".toList ++ pass

/-- The part of `getAuthToken` after a request that came back: find the token marker
in `resp.String()`. -/
def extractToken (resp : Response) : List Char × Option (List Char) :=
  let token := FindStringSubmatch sessionToken resp.String
  if token.length ≤ 0 then ([], some (resp.Body ++ " - getAuthToken token parse".toList))
  else (token.getD 1 [], none)

/-- Function `getAuthToken`.  `get` is the HTTP GET of the client: it fails with the
transport error's message or gives the response. -/
def getAuthToken (get : List Char → Except (List Char) Response)
    (restAPIPrefix server user pass : List Char) : List Char × Option (List Char) :=
  match get (loginReq restAPIPrefix server user pass) with
  | Except.error err =>
    ([], some (ReplaceAllString connErr err ++ " - getAuthToken login".toList))
  | Except.ok resp => extractToken resp

/-- Function `NewBlueCatProvider`: log in, and build the provider around the token;
a failed login is returned with ` - NewSession initialization` appended. -/
def NewBlueCatProvider (get : List Char → Except (List Char) Response)
    (restAPIPrefix : List Char) (blueCatConfig : BlueCatConfig) :
    Option BlueCatProvider × Option (List Char) :=
  match getAuthToken get restAPIPrefix blueCatConfig.Server.toList
      blueCatConfig.Username.toList blueCatConfig.Password.toList with
  | (_, some err) => (none, some (err ++ " - NewSession initialization".toList))
  | (token, none) =>
    (some { Server := blueCatConfig.Server, AuthToken := String.mk token, serverId := "todo",
            parentId := "todo", viewId := "todo", InsecureFlag := blueCatConfig.InsecureFlag,
            DryRun := blueCatConfig.DryRun }, none)

/-! ## The record batches: `CreateRecords`, `UpdateRecords`, `DeleteRecords`

The three methods hand their endpoints to `p.doRecords` with an action constant of
the Route 53 SDK.  Neither `doRecords` nor the constants are among the source files;
they are parameters. -/

/-- Method `BlueCatProvider.CreateRecords`. -/
def CreateRecords (doRecords : String → List Endpoint → World σ → Option ε × World σ)
    (changeActionCreate : String) (endpoints : List Endpoint) (w : World σ) :
    Option ε × World σ :=
  doRecords changeActionCreate endpoints w

/-- Method `BlueCatProvider.UpdateRecords`; the second list of endpoints is ignored. -/
def UpdateRecords (doRecords : String → List Endpoint → World σ → Option ε × World σ)
    (changeActionUpsert : String) (endpoints _old : List Endpoint) (w : World σ) :
    Option ε × World σ :=
  doRecords changeActionUpsert endpoints w

/-- Method `BlueCatProvider.DeleteRecords`. -/
def DeleteRecords (doRecords : String → List Endpoint → World σ → Option ε × World σ)
    (changeActionDelete : String) (endpoints : List Endpoint) (w : World σ) :
    Option ε × World σ :=
  doRecords changeActionDelete endpoints w

/-! ## Reference notions the properties are stated with -/

/-- The order in which `submitChanges` processes a grouping: zone by zone, and within
a zone in the order of its changes. -/
def order : List (String × List Change) → List (String × Change)
  | [] => []
  | (zoneName, changes) :: rest => changes.map (fun c => (zoneName, c)) ++ order rest

/-- The backend call the `switch` of `submitChanges` issues for a change of a zone
(`none`: the action is none of the three constants). -/
def callOf (d : Deps σ ε) (zc : String × Change) : Option Call :=
  if zc.2.Action = d.ns1Create then some (Call.CreateRecord (d.ns1BuildRecord zc.1 zc.2))
  else if zc.2.Action = d.ns1Delete then
    some (Call.DeleteRecord zc.1 (d.ns1BuildRecord zc.1 zc.2).Domain
      (d.ns1BuildRecord zc.1 zc.2).Typ)
  else if zc.2.Action = d.ns1Update then
    some (Call.UpdateRecord (d.ns1BuildRecord zc.1 zc.2))
  else none

/-- The log line of a change of a zone. -/
def logOf (d : Deps σ ε) (zc : String × Change) : LogFields := logFields d zc.1 zc.2

/-- The backend's answer to a mutating call. -/
def respond (d : Deps σ ε) : Call → σ → Option ε × σ
  | Call.CreateRecord record => d.CreateRecord record
  | Call.DeleteRecord zoneName domain type => d.DeleteRecord zoneName domain type
  | Call.UpdateRecord record => d.UpdateRecord record

/-- The backend state after a sequence of calls every one of which succeeded
(`none`: one of them failed). -/
def succeedAll (d : Deps σ ε) : List Call → σ → Option σ
  | [], s => some s
  | call :: rest, s =>
    match respond d call s with
    | (none, s1) => succeedAll d rest s1
    | (some _, _) => none

/-- The changes of a processing order applied one after the other, stopping at the
first error. -/
def replay (d : Deps σ ε) (p : BlueCatProvider) :
    List (String × Change) → World σ → Option ε × World σ
  | [], w => (none, w)
  | zc :: rest, w =>
    match applyChange d p zc.1 zc.2 w with
    | (some err, w1) => (some err, w1)
    | (none, w1) => replay d p rest w1

/-- The zone fetches of `Records` on their own: every zone's data, in zone order, or
the error of the first fetch that fails. -/
def fetchAll (d : Deps σ ε) : List Zone → σ → Except ε (List ZoneData) × σ
  | [], s => (Except.ok [], s)
  | zone :: rest, s =>
    match d.GetZone zone.String s with
    | (Except.error err, s1) => (Except.error err, s1)
    | (Except.ok zoneData, s1) =>
      match fetchAll d rest s1 with
      | (Except.error err, s2) => (Except.error err, s2)
      | (Except.ok more, s2) => (Except.ok (zoneData :: more), s2)

/-- The records of the fetched zones, in zone order and then record order. -/
def allRecords : List ZoneData → List Record
  | [] => []
  | zoneData :: rest => zoneData.Records ++ allRecords rest

/-- The endpoint `Records` builds for a backend record. -/
def toEndpoint (record : Record) : Endpoint :=
  NewEndpointWithTTL record.Domain record.Typ record.TTL record.ShortAns

/-- The endpoints of the records of a supported type. -/
def supportedEndpoints (d : Deps σ ε) (records : List Record) : List Endpoint :=
  (records.filter (fun r => d.supportedRecordType r.Typ)).map toEndpoint

/-! ## A fake backend for concrete runs -/

/-- Modelled from the spec: a zone matches a name when the zone's name is a suffix
of it. -/
def matchesZone (zone : Zone) (name : String) : Bool :=
  zone.name.toList.isSuffixOf name.toList

/-- Modelled from the spec: the zone a name is assigned to is the one whose name is
the longest matching suffix (`none`: no zone matches). -/
def findZone : List Zone → String → Option Zone
  | [], _ => none
  | zone :: rest, name =>
    match findZone rest name with
    | some best =>
      if matchesZone zone name && decide (best.name.length < zone.name.length) then some zone
      else some best
    | none => if matchesZone zone name then some zone else none

/-- Modelled from the spec: the planner's `groupByZone`, standing in for
`ns1ChangesByZone`, which is not among the source files.  Each change goes to the
zone with the longest matching suffix; the result is the mapping alone, as at the
call site in `submitChanges`, so a change that matches no zone is in no entry. -/
def groupByZone (zones : List Zone) (changes : List Change) : List (String × List Change) :=
  zones.map (fun z =>
    (z.name, changes.filter (fun c => (findZone zones c.Endpoint.DNSName).map Zone.name == some z.name)))

/-- Modelled from the spec: the planner's `buildNativeRecord`, standing in for
`ns1BuildRecord`, which is not among the source files: the endpoint's domain, type,
TTL and answer list. -/
def buildNativeRecord (_zoneName : String) (change : Change) : Record :=
  { Domain := change.Endpoint.DNSName, Typ := change.Endpoint.RecordType,
    TTL := change.Endpoint.RecordTTL, ShortAns := change.Endpoint.Targets }

/-- A fake backend: its state is the list of records it holds.  Creating a record
whose (domain, type) is already held fails, as does updating or deleting one that
is not held; the zones `zone1` and `zone2` are listed, and a zone's records are those
whose domain ends in the zone's name.  The zone `broken` cannot be fetched. -/
def fake : Deps (List Record) String where
  zonesFiltered := fun s => (Except.ok [⟨"1", "zone1"⟩, ⟨"2", "zone2"⟩], s)
  GetZone := fun zoneName s =>
    if zoneName = "broken" then (Except.error "zone fetch failed", s)
    else (Except.ok ⟨s.filter (fun r => zoneName.toList.isSuffixOf r.Domain.toList)⟩, s)
  CreateRecord := fun record s =>
    if s.any (fun r => r.Domain == record.Domain && r.Typ == record.Typ) then
      (some "record exists", s)
    else (none, s ++ [record])
  DeleteRecord := fun _ domain type s =>
    if s.any (fun r => r.Domain == domain && r.Typ == type) then
      (none, s.filter (fun r => !(r.Domain == domain && r.Typ == type)))
    else (some "no such record", s)
  UpdateRecord := fun record s =>
    if s.any (fun r => r.Domain == record.Domain && r.Typ == record.Typ) then
      (none, s.map (fun r => if r.Domain == record.Domain && r.Typ == record.Typ then record else r))
    else (some "no such record", s)
  supportedRecordType := fun t => t == "A" || t == "CNAME" || t == "TXT"
  ns1ChangesByZone := groupByZone
  ns1BuildRecord := buildNativeRecord
  ns1Create := "CREATE"
  ns1Delete := "DELETE"
  ns1Update := "UPDATE"

/-- The fake backend with a zone directory that lists the zone `broken` after
`zone1`. -/
def fakeBroken : Deps (List Record) String :=
  { fake with zonesFiltered := fun s => (Except.ok [⟨"1", "zone1"⟩, ⟨"9", "broken"⟩], s) }

/-- A provider with the given dry-run flag. -/
def provider (dryRun : Bool) : BlueCatProvider :=
  { Server := "bam.example", AuthToken := "BAMAuthToken: t0k3n=", serverId := "todo",
    parentId := "todo", viewId := "todo", InsecureFlag := false, DryRun := dryRun }

/-- A change with one target and no TTL set. -/
def mkChange (action name type target : String) : Change :=
  { Action := action,
    Endpoint := { DNSName := name, Targets := [target], RecordType := type, RecordTTL := 0 } }

/-- A world in which the backend holds the given records and nothing has been called
or logged. -/
def freshWorld (records : List Record) : World (List Record) :=
  { backend := records, calls := [], log := [] }

/-- The fake backend made lenient: every mutating call is accepted. -/
def fakeLenient : Deps (List Record) String :=
  { fake with
    CreateRecord := fun record s => (none, s ++ [record])
    DeleteRecord := fun _ _ _ s => (none, s)
    UpdateRecord := fun _ s => (none, s) }

/-- A record the backend holds in `zone1`. -/
def heldRecord : Record := { Domain := "b.zone1", Typ := "A", TTL := 60, ShortAns := ["9.9.9.9"] }

/-- The batch `[C1, C2, C3]`: three creations, of which the second is of a record
the backend already holds, the third in another zone. -/
def batch : List Change :=
  [mkChange "CREATE" "a.zone1" "A" "1.2.3.4", mkChange "CREATE" "b.zone1" "A" "1.2.3.4",
    mkChange "CREATE" "c.zone2" "A" "8.8.8.8"]

/-- A record the backend holds in `zone2`. -/
def heldInZone2 : Record := { Domain := "c.zone2", Typ := "A", TTL := 60, ShortAns := ["9.9.9.9"] }

/-- The batch `[C1, C2, C3]` with the zones interleaved: `C2` is the creation of a
record the backend already holds in `zone2`, and `C3`, listed after it, is in
`zone1` like `C1`. -/
def crossBatch : List Change :=
  [mkChange "CREATE" "a.zone1" "A" "1.2.3.4", mkChange "CREATE" "c.zone2" "A" "8.8.8.8",
    mkChange "CREATE" "d.zone1" "A" "4.3.2.1"]

/-- A batch with every action, and one action that is none of the three. -/
def mixedBatch : List Change :=
  [mkChange "CREATE" "a.zone1" "A" "1.2.3.4", mkChange "UPDATE" "b.zone1" "A" "1.2.3.4",
    mkChange "DELETE" "b.zone1" "A" "9.9.9.9", mkChange "UPSERT" "c.zone2" "A" "8.8.8.8"]

/-- A batch whose second change is for a name in none of the zones. -/
def strayBatch : List Change :=
  [mkChange "CREATE" "a.zone1" "A" "1.2.3.4", mkChange "CREATE" "b.other" "A" "1.2.3.4"]

/-- Records of a backend: one without TTL, one of an unsupported type, one in the
second zone. -/
def heldRecords : List Record :=
  [{ Domain := "b.zone1", Typ := "A", TTL := 0, ShortAns := ["9.9.9.9"] },
   { Domain := "m.zone1", Typ := "MX", TTL := 5, ShortAns := ["mail.zone1"] },
   { Domain := "c.zone2", Typ := "TXT", TTL := 60, ShortAns := ["x"] }]

/-- What the pattern `^.*(BAMAuthToken:\s+[\w=]+)\s+.*$` asks of a text: it is a run
without line feed, the marker `BAMAuthToken:`, white space, a run of `[\w=]`, white
space, and a run without line feed up to the end. -/
def HasTokenMarker (s : List Char) : Prop :=
  ∃ a ws w ws2 b : List Char,
    s = a ++ ("BAMAuthToken:".toList ++ (ws ++ (w ++ (ws2 ++ b)))) ∧
    (∀ c ∈ a, isDot c = true) ∧ ws ≠ [] ∧ (∀ c ∈ ws, isSpace c = true) ∧
    w ≠ [] ∧ (∀ c ∈ w, isWordEq c = true) ∧ ws2 ≠ [] ∧ (∀ c ∈ ws2, isSpace c = true) ∧
    (∀ c ∈ b, isDot c = true)

/-- A login response as the backend words it. -/
def loginBody : List Char :=
  "Session Token-> BAMAuthToken: 2Z5ZmTLT= <- for User : admin".toList

/-- A transport that answers the login request with `loginBody`. -/
def getOk (_url : List Char) : Except (List Char) Response :=
  Except.ok { String := loginBody, Body := loginBody }

/-- A transport that fails the way Go's HTTP client words it since Go 1.14, with the
URL quoted: `Get "<url>": EOF`. -/
def getQuoted (url : List Char) : Except (List Char) Response :=
  Except.error ("Get \"".toList ++ url ++ "\": EOF".toList)

/-- A transport that fails with `Get <url>: dial tcp 10.0.0.1:443: connect: connection refused`. -/
def getRefused (url : List Char) : Except (List Char) Response :=
  Except.error ("Get ".toList ++ url ++
    ": ".toList ++ "dial tcp 10.0.0.1:443: connect: connection refused".toList)

/-! ## The change applier: lemmas -/

theorem applyChange_dry (d : Deps σ ε) (p : BlueCatProvider) (z : String) (c : Change)
    (w : World σ) (hdry : p.DryRun = true) :
    applyChange d p z c w = (none, { w with log := w.log ++ [logOf d (z, c)] }) := by
  simp [applyChange, hdry, logOf]

theorem applyChange_call (d : Deps σ ε) (p : BlueCatProvider) (z : String) (c : Change)
    (w : World σ) (call : Call) (hdry : p.DryRun = false) (hcall : callOf d (z, c) = some call) :
    applyChange d p z c w =
      ((respond d call w.backend).1,
        { backend := (respond d call w.backend).2, calls := w.calls ++ [call],
          log := w.log ++ [logOf d (z, c)] }) := by
  simp only [callOf] at hcall
  unfold applyChange
  simp only [hdry, Bool.false_eq_true, if_false]
  split_ifs at hcall with h1 h2 h3
  · simp only [Option.some.injEq] at hcall
    subst hcall
    rw [if_pos h1]
    simp [World.issue, respond, logOf]
  · simp only [Option.some.injEq] at hcall
    subst hcall
    rw [if_neg h1, if_pos h2]
    simp [World.issue, respond, logOf]
  · simp only [Option.some.injEq] at hcall
    subst hcall
    rw [if_neg h1, if_neg h2, if_pos h3]
    simp [World.issue, respond, logOf]

theorem applyChange_nocall (d : Deps σ ε) (p : BlueCatProvider) (z : String) (c : Change)
    (w : World σ) (hdry : p.DryRun = false) (hcall : callOf d (z, c) = none) :
    applyChange d p z c w = (none, { w with log := w.log ++ [logOf d (z, c)] }) := by
  simp only [callOf] at hcall
  unfold applyChange
  simp only [hdry, Bool.false_eq_true, if_false]
  split_ifs at hcall with h1 h2 h3
  rw [if_neg h1, if_neg h2, if_neg h3]
  simp [logOf]

theorem replay_append (d : Deps σ ε) (p : BlueCatProvider) (a b : List (String × Change))
    (w : World σ) :
    replay d p (a ++ b) w =
      match replay d p a w with
      | (some err, w1) => (some err, w1)
      | (none, w1) => replay d p b w1 := by
  induction a generalizing w with
  | nil => simp [replay]
  | cons zc rest ih =>
    simp only [List.cons_append, replay]
    rcases h : applyChange d p zc.1 zc.2 w with ⟨_ | err, w1⟩
    · simp [ih]
    · simp

theorem zoneLoop_eq_replay (d : Deps σ ε) (p : BlueCatProvider) (z : String)
    (cs : List Change) (w : World σ) :
    zoneLoop d p z cs w = replay d p (cs.map (fun c => (z, c))) w := by
  induction cs generalizing w with
  | nil => simp [zoneLoop, replay]
  | cons c rest ih =>
    simp only [zoneLoop, List.map_cons, replay]
    rcases h : applyChange d p z c w with ⟨_ | err, w1⟩
    · simp [ih]
    · simp

theorem batchLoop_eq_replay (d : Deps σ ε) (p : BlueCatProvider)
    (groups : List (String × List Change)) (w : World σ) :
    batchLoop d p groups w = replay d p (order groups) w := by
  induction groups generalizing w with
  | nil => simp [batchLoop, replay, order]
  | cons g rest ih =>
    obtain ⟨z, cs⟩ := g
    simp only [batchLoop, order, replay_append, zoneLoop_eq_replay]
    rcases h : replay d p (cs.map (fun c => (z, c))) w with ⟨_ | err, w1⟩
    · simp [ih]
    · simp

theorem replay_dry (d : Deps σ ε) (p : BlueCatProvider) (l : List (String × Change))
    (w : World σ) (hdry : p.DryRun = true) :
    replay d p l w = (none, { w with log := w.log ++ l.map (logOf d) }) := by
  induction l generalizing w with
  | nil => simp [replay]
  | cons zc rest ih =>
    simp only [replay, applyChange_dry d p zc.1 zc.2 w hdry]
    rw [ih]
    simp

theorem replay_succeed (d : Deps σ ε) (p : BlueCatProvider) (l : List (String × Change))
    (w : World σ) (s1 : σ) (hdry : p.DryRun = false)
    (hok : succeedAll d (l.filterMap (callOf d)) w.backend = some s1) :
    replay d p l w =
      (none, { backend := s1, calls := w.calls ++ l.filterMap (callOf d),
               log := w.log ++ l.map (logOf d) }) := by
  induction l generalizing w with
  | nil =>
    simp only [List.filterMap_nil, succeedAll, Option.some.injEq] at hok
    subst hok
    simp [replay]
  | cons zc rest ih =>
    obtain ⟨z, c⟩ := zc
    cases hc : callOf d (z, c) with
    | none =>
      simp only [List.filterMap_cons, hc] at hok ⊢
      simp only [replay, applyChange_nocall d p z c w hdry hc]
      rw [ih { w with log := w.log ++ [logOf d (z, c)] } hok]
      simp
    | some call =>
      simp only [List.filterMap_cons, hc, succeedAll] at hok ⊢
      simp only [replay, applyChange_call d p z c w call hdry hc]
      rcases hr : respond d call w.backend with ⟨_ | err, s⟩
      · rw [hr] at hok
        simp only at hok ⊢
        rw [ih { backend := s, calls := w.calls ++ [call], log := w.log ++ [logOf d (z, c)] } hok]
        simp
      · rw [hr] at hok
        simp at hok

theorem succeedAll_of_ok (d : Deps σ ε) (hok : ∀ call s, (respond d call s).1 = none)
    (calls : List Call) (s : σ) : ∃ s1, succeedAll d calls s = some s1 := by
  induction calls generalizing s with
  | nil => exact ⟨s, rfl⟩
  | cons call rest ih =>
    simp only [succeedAll]
    rcases hr : respond d call s with ⟨_ | err, s2⟩
    · exact ih s2
    · have := hok call s
      rw [hr] at this
      simp at this

theorem submitChanges_eq_replay (d : Deps σ ε) (p : BlueCatProvider) (changes : List Change)
    (w : World σ) (zones : List Zone) (s : σ) (hne : changes ≠ [])
    (hz : d.zonesFiltered w.backend = (Except.ok zones, s)) :
    submitChanges d p changes w =
      replay d p (order (d.ns1ChangesByZone zones changes)) { w with backend := s } := by
  have hlen : ¬ changes.length = 0 := by
    simpa [List.length_eq_zero] using hne
  simp only [submitChanges, hlen, if_false, hz, batchLoop_eq_replay]

/-! ## The change applier: properties -/

/-- C1: with dry-run enabled, `submitChanges` on a non-empty change list whose zone
listing succeeds returns nil and issues no create, update or delete call: the calls
recorded are those recorded before, the backend is in the state the zone listing left
it in, and one log line per processed change has been written, whatever the actions. -/
theorem submitChanges_dryRun_noop (d : Deps σ ε) (p : BlueCatProvider) (changes : List Change)
    (w : World σ) (zones : List Zone) (s : σ) (hdry : p.DryRun = true) (hne : changes ≠ [])
    (hz : d.zonesFiltered w.backend = (Except.ok zones, s)) :
    submitChanges d p changes w =
      (none, { backend := s, calls := w.calls,
               log := w.log ++ (order (d.ns1ChangesByZone zones changes)).map (logOf d) }) := by
  rw [submitChanges_eq_replay d p changes w zones s hne hz, replay_dry d p _ _ hdry]

theorem submitChanges_dryRun_noop_witness :
    (provider true).DryRun = true ∧ mixedBatch ≠ [] ∧
    fake.zonesFiltered (freshWorld [heldRecord]).backend =
      (Except.ok [⟨"1", "zone1"⟩, ⟨"2", "zone2"⟩], [heldRecord]) ∧
    submitChanges fake (provider true) mixedBatch (freshWorld [heldRecord]) =
      (none, { backend := [heldRecord], calls := [],
               log := [⟨"a.zone1", "A", 0, "CREATE", "zone1"⟩, ⟨"b.zone1", "A", 0, "UPDATE", "zone1"⟩,
                       ⟨"b.zone1", "A", 0, "DELETE", "zone1"⟩, ⟨"c.zone2", "A", 0, "UPSERT", "zone2"⟩] }) :=
  ⟨rfl, by decide, rfl,
    submitChanges_dryRun_noop fake (provider true) mixedBatch (freshWorld [heldRecord])
      [⟨"1", "zone1"⟩, ⟨"2", "zone2"⟩] [heldRecord] rfl (by decide) rfl⟩

/-- C2, as stated, fails: in `crossBatch` = `[C1, C2, C3]` the call for `C2` (in
`zone2`) is the one that fails, yet the call for `C3`, listed after it in the batch,
has been issued and `C3` stays applied: the changes are processed zone by zone, and
`C3` is in `zone1`, which is processed before `zone2`. -/
theorem submitChanges_batch_order_counterexample :
    fake.zonesFiltered (freshWorld [heldInZone2]).backend =
      (Except.ok [⟨"1", "zone1"⟩, ⟨"2", "zone2"⟩], [heldInZone2]) ∧
    order (fake.ns1ChangesByZone [⟨"1", "zone1"⟩, ⟨"2", "zone2"⟩] crossBatch) =
      [("zone1", mkChange "CREATE" "a.zone1" "A" "1.2.3.4"),
       ("zone1", mkChange "CREATE" "d.zone1" "A" "4.3.2.1"),
       ("zone2", mkChange "CREATE" "c.zone2" "A" "8.8.8.8")] ∧
    (submitChanges fake (provider false) crossBatch (freshWorld [heldInZone2])).1 =
      some "record exists" ∧
    (submitChanges fake (provider false) crossBatch (freshWorld [heldInZone2])).2.calls =
      [Call.CreateRecord ⟨"a.zone1", "A", 0, ["1.2.3.4"]⟩,
       Call.CreateRecord ⟨"d.zone1", "A", 0, ["4.3.2.1"]⟩,
       Call.CreateRecord ⟨"c.zone2", "A", 0, ["8.8.8.8"]⟩] ∧
    (submitChanges fake (provider false) crossBatch (freshWorld [heldInZone2])).2.backend =
      [heldInZone2, ⟨"a.zone1", "A", 0, ["1.2.3.4"]⟩, ⟨"d.zone1", "A", 0, ["4.3.2.1"]⟩] :=
  ⟨rfl, by decide, by decide, by decide, by decide⟩

/-- C2, amended: fail-fast holds in processing order, not in the order of the batch.
With dry-run off, let the order in which the grouping is processed (zone by zone as
the `range` visits the mapping, within a zone in the order of its changes) be `pre`,
then the change `(z, c)`, then `post`.  If every call for `pre` succeeds and the call for
`(z, c)` fails with `e`, then `submitChanges` returns exactly `e`; the calls issued
are those of `pre` followed by the failing one and nothing else (none for `post`, in
the same zone or another); and the backend is left in the state right after the
failing call, so what was applied before stays applied. -/
theorem submitChanges_fail_fast (d : Deps σ ε) (p : BlueCatProvider) (changes : List Change)
    (w : World σ) (zones : List Zone) (s0 s1 s2 : σ) (pre post : List (String × Change))
    (z : String) (c : Change) (call : Call) (e : ε)
    (hdry : p.DryRun = false) (hne : changes ≠ [])
    (hz : d.zonesFiltered w.backend = (Except.ok zones, s0))
    (hord : order (d.ns1ChangesByZone zones changes) = pre ++ (z, c) :: post)
    (hpre : succeedAll d (pre.filterMap (callOf d)) s0 = some s1)
    (hcall : callOf d (z, c) = some call)
    (hfail : respond d call s1 = (some e, s2)) :
    submitChanges d p changes w =
      (some e, { backend := s2, calls := w.calls ++ pre.filterMap (callOf d) ++ [call],
                 log := w.log ++ pre.map (logOf d) ++ [logOf d (z, c)] }) := by
  rw [submitChanges_eq_replay d p changes w zones s0 hne hz, hord, replay_append,
    replay_succeed d p pre { w with backend := s0 } s1 hdry hpre]
  simp only [replay, applyChange_call d p z c _ call hdry hcall, hfail]

theorem submitChanges_fail_fast_witness :
    (provider false).DryRun = false ∧ batch ≠ [] ∧
    fake.zonesFiltered (freshWorld [heldRecord]).backend =
      (Except.ok [⟨"1", "zone1"⟩, ⟨"2", "zone2"⟩], [heldRecord]) ∧
    order (fake.ns1ChangesByZone [⟨"1", "zone1"⟩, ⟨"2", "zone2"⟩] batch) =
      [("zone1", mkChange "CREATE" "a.zone1" "A" "1.2.3.4")] ++
        ("zone1", mkChange "CREATE" "b.zone1" "A" "1.2.3.4") ::
          [("zone2", mkChange "CREATE" "c.zone2" "A" "8.8.8.8")] ∧
    submitChanges fake (provider false) batch (freshWorld [heldRecord]) =
      (some "record exists",
        { backend := [heldRecord, ⟨"a.zone1", "A", 0, ["1.2.3.4"]⟩],
          calls := [Call.CreateRecord ⟨"a.zone1", "A", 0, ["1.2.3.4"]⟩,
                    Call.CreateRecord ⟨"b.zone1", "A", 0, ["1.2.3.4"]⟩],
          log := [⟨"a.zone1", "A", 0, "CREATE", "zone1"⟩, ⟨"b.zone1", "A", 0, "CREATE", "zone1"⟩] }) :=
  ⟨rfl, by decide, rfl, by decide,
    submitChanges_fail_fast fake (provider false) batch (freshWorld [heldRecord])
      [⟨"1", "zone1"⟩, ⟨"2", "zone2"⟩] [heldRecord] [heldRecord, ⟨"a.zone1", "A", 0, ["1.2.3.4"]⟩]
      [heldRecord, ⟨"a.zone1", "A", 0, ["1.2.3.4"]⟩]
      [("zone1", mkChange "CREATE" "a.zone1" "A" "1.2.3.4")]
      [("zone2", mkChange "CREATE" "c.zone2" "A" "8.8.8.8")]
      "zone1" (mkChange "CREATE" "b.zone1" "A" "1.2.3.4")
      (Call.CreateRecord ⟨"b.zone1", "A", 0, ["1.2.3.4"]⟩) "record exists"
      rfl (by decide) rfl (by decide) (by decide) (by decide) (by decide)⟩

/-- C3: `ApplyChanges` evaluated on a changeset of one creation, dry-run off: it hands
the changeset back and leaves the world as it was (no backend call), whereas
`submitChanges` on the same changes issues the creation. -/
theorem ApplyChanges_returns_its_argument :
    ApplyChanges fake (provider false) [mkChange "CREATE" "a.zone1" "A" "1.2.3.4"] (freshWorld []) =
      ([mkChange "CREATE" "a.zone1" "A" "1.2.3.4"], freshWorld []) ∧
    (ApplyChanges fake (provider false) [mkChange "CREATE" "a.zone1" "A" "1.2.3.4"]
      (freshWorld [])).2.calls = [] ∧
    (submitChanges fake (provider false) [mkChange "CREATE" "a.zone1" "A" "1.2.3.4"]
      (freshWorld [])).2.calls = [Call.CreateRecord ⟨"a.zone1", "A", 0, ["1.2.3.4"]⟩] :=
  ⟨rfl, rfl, by decide⟩

/-- C9, as stated, fails: in `strayBatch` the second change's name `b.other` matches
neither zone, yet `submitChanges` returns nil and has issued the creation of the
first change. -/
theorem submitChanges_stray_change_counterexample :
    (∃ c ∈ strayBatch, ∀ zone ∈ [(⟨"1", "zone1"⟩ : Zone), ⟨"2", "zone2"⟩],
      matchesZone zone c.Endpoint.DNSName = false) ∧
    fake.zonesFiltered (freshWorld []).backend =
      (Except.ok [⟨"1", "zone1"⟩, ⟨"2", "zone2"⟩], []) ∧
    (submitChanges fake (provider false) strayBatch (freshWorld [])).1 = none ∧
    (submitChanges fake (provider false) strayBatch (freshWorld [])).2.calls =
      [Call.CreateRecord ⟨"a.zone1", "A", 0, ["1.2.3.4"]⟩] :=
  ⟨by decide, rfl, by decide, by decide⟩

/-- C9, amended: `submitChanges` validates nothing up front.  The grouping step gives
the zone-to-changes mapping and no error, so when the zone listing succeeds and the
backend accepts every call, `submitChanges` returns nil for every non-empty change
list, and with dry-run off the calls it has issued are those of the changes in the
mapping, in processing order. -/
theorem submitChanges_no_planning_error (d : Deps σ ε) (p : BlueCatProvider)
    (changes : List Change) (w : World σ) (zones : List Zone) (s : σ) (hne : changes ≠ [])
    (hz : d.zonesFiltered w.backend = (Except.ok zones, s))
    (hok : ∀ call t, (respond d call t).1 = none) :
    (submitChanges d p changes w).1 = none ∧
    (p.DryRun = false →
      (submitChanges d p changes w).2.calls =
        w.calls ++ (order (d.ns1ChangesByZone zones changes)).filterMap (callOf d)) := by
  rw [submitChanges_eq_replay d p changes w zones s hne hz]
  cases hdry : p.DryRun with
  | true => simp [replay_dry d p _ _ hdry]
  | false =>
    obtain ⟨s1, hs1⟩ := succeedAll_of_ok d hok
      ((order (d.ns1ChangesByZone zones changes)).filterMap (callOf d)) s
    rw [replay_succeed d p _ { w with backend := s } s1 hdry hs1]
    simp

theorem submitChanges_no_planning_error_witness :
    strayBatch ≠ [] ∧
    (∀ call t, (respond fakeLenient call t).1 = none) ∧
    (submitChanges fakeLenient (provider false) strayBatch (freshWorld [])).1 = none ∧
    ((provider false).DryRun = false →
      (submitChanges fakeLenient (provider false) strayBatch (freshWorld [])).2.calls =
        (freshWorld []).calls ++
          (order (fakeLenient.ns1ChangesByZone [⟨"1", "zone1"⟩, ⟨"2", "zone2"⟩]
            strayBatch)).filterMap (callOf fakeLenient)) :=
  ⟨by decide, fun call _ => by cases call <;> rfl,
    submitChanges_no_planning_error fakeLenient (provider false) strayBatch (freshWorld [])
      [⟨"1", "zone1"⟩, ⟨"2", "zone2"⟩] [] (by decide) rfl
      (fun call _ => by cases call <;> rfl)⟩

/-! ## The state reader: lemmas -/

theorem supportedEndpoints_append (d : Deps σ ε) (a b : List Record) :
    supportedEndpoints d (a ++ b) = supportedEndpoints d a ++ supportedEndpoints d b := by
  simp [supportedEndpoints]

theorem appendRecords_eq (d : Deps σ ε) (records : List Record) (endpoints : List Endpoint) :
    appendRecords d records endpoints = endpoints ++ supportedEndpoints d records := by
  induction records generalizing endpoints with
  | nil => simp [appendRecords, supportedEndpoints]
  | cons r rest ih =>
    by_cases h : d.supportedRecordType r.Typ = true
    · simp [appendRecords, h, ih, supportedEndpoints, toEndpoint]
    · simp [appendRecords, h, ih, supportedEndpoints]

theorem recordsLoop_ok (d : Deps σ ε) (zones : List Zone) (endpoints : List Endpoint)
    (s s2 : σ) (zds : List ZoneData) (hf : fetchAll d zones s = (Except.ok zds, s2)) :
    recordsLoop d zones endpoints s =
      ((endpoints ++ supportedEndpoints d (allRecords zds), none), s2) := by
  induction zones generalizing endpoints s zds with
  | nil =>
    simp only [fetchAll, Prod.mk.injEq, Except.ok.injEq] at hf
    obtain ⟨rfl, rfl⟩ := hf
    simp [recordsLoop, allRecords, supportedEndpoints]
  | cons zone rest ih =>
    simp only [fetchAll] at hf
    simp only [recordsLoop]
    rcases hg : d.GetZone zone.String s with ⟨err | zoneData, s1⟩
    · rw [hg] at hf
      simp at hf
    · rw [hg] at hf
      simp only at hf ⊢
      rcases hr : fetchAll d rest s1 with ⟨err | more, s3⟩
      · rw [hr] at hf
        simp at hf
      · rw [hr] at hf
        simp only [Prod.mk.injEq, Except.ok.injEq] at hf
        obtain ⟨rfl, rfl⟩ := hf
        rw [ih _ s1 more hr, appendRecords_eq]
        simp [allRecords, supportedEndpoints_append]

theorem recordsLoop_error (d : Deps σ ε) (zones : List Zone) (endpoints : List Endpoint)
    (s s2 : σ) (e : ε) (hf : fetchAll d zones s = (Except.error e, s2)) :
    recordsLoop d zones endpoints s = (([], some e), s2) := by
  induction zones generalizing endpoints s with
  | nil => simp [fetchAll] at hf
  | cons zone rest ih =>
    simp only [fetchAll] at hf
    simp only [recordsLoop]
    rcases hg : d.GetZone zone.String s with ⟨err | zoneData, s1⟩
    · rw [hg] at hf
      simp only [Prod.mk.injEq, Except.error.injEq] at hf
      obtain ⟨rfl, rfl⟩ := hf
      rfl
    · rw [hg] at hf
      simp only at hf ⊢
      rcases hr : fetchAll d rest s1 with ⟨err | more, s3⟩
      · rw [hr] at hf
        simp only [Prod.mk.injEq, Except.error.injEq] at hf
        obtain ⟨rfl, rfl⟩ := hf
        exact ih _ s1 hr
      · rw [hr] at hf
        simp at hf

theorem Records_of_fetch_ok (d : Deps σ ε) (s s1 s2 : σ) (zones : List Zone)
    (zds : List ZoneData) (hz : d.zonesFiltered s = (Except.ok zones, s1))
    (hf : fetchAll d zones s1 = (Except.ok zds, s2)) :
    Records d s = ((supportedEndpoints d (allRecords zds), none), s2) := by
  simp only [Records, hz]
  rw [recordsLoop_ok d zones [] s1 s2 zds hf]
  simp

theorem Records_of_fetch_error (d : Deps σ ε) (s s1 s2 : σ) (zones : List Zone) (e : ε)
    (hz : d.zonesFiltered s = (Except.ok zones, s1))
    (hf : fetchAll d zones s1 = (Except.error e, s2)) :
    Records d s = (([], some e), s2) := by
  simp only [Records, hz]
  exact recordsLoop_error d zones [] s1 s2 e hf

theorem Records_of_listing_error (d : Deps σ ε) (s s1 : σ) (e : ε)
    (hz : d.zonesFiltered s = (Except.error e, s1)) :
    Records d s = (([], some e), s1) := by
  simp only [Records, hz]

/-! ## The state reader: properties -/

/-- C4: when the zone listing and every zone fetch succeed, `Records` returns no error
and exactly the endpoints of the fetched records whose type is supported, in zone
order and then record order, each built from its record's domain, type, TTL and
answer list; a record of an unsupported type contributes no endpoint and no error. -/
theorem Records_keeps_supported (d : Deps σ ε) (s s1 s2 : σ) (zones : List Zone)
    (zds : List ZoneData) (hz : d.zonesFiltered s = (Except.ok zones, s1))
    (hf : fetchAll d zones s1 = (Except.ok zds, s2)) :
    Records d s =
      ((((allRecords zds).filter (fun r => d.supportedRecordType r.Typ)).map
          (fun r => NewEndpointWithTTL r.Domain r.Typ r.TTL r.ShortAns), none), s2) :=
  Records_of_fetch_ok d s s1 s2 zones zds hz hf

theorem Records_keeps_supported_witness :
    fake.zonesFiltered heldRecords = (Except.ok [⟨"1", "zone1"⟩, ⟨"2", "zone2"⟩], heldRecords) ∧
    fetchAll fake [⟨"1", "zone1"⟩, ⟨"2", "zone2"⟩] heldRecords =
      (Except.ok [⟨[⟨"b.zone1", "A", 0, ["9.9.9.9"]⟩, ⟨"m.zone1", "MX", 5, ["mail.zone1"]⟩]⟩,
                  ⟨[⟨"c.zone2", "TXT", 60, ["x"]⟩]⟩], heldRecords) ∧
    Records fake heldRecords =
      (([⟨"b.zone1", ["9.9.9.9"], "A", 0⟩, ⟨"c.zone2", ["x"], "TXT", 60⟩], none), heldRecords) :=
  ⟨rfl, rfl,
    Records_keeps_supported fake heldRecords heldRecords heldRecords
      [⟨"1", "zone1"⟩, ⟨"2", "zone2"⟩]
      [⟨[⟨"b.zone1", "A", 0, ["9.9.9.9"]⟩, ⟨"m.zone1", "MX", 5, ["mail.zone1"]⟩]⟩,
        ⟨[⟨"c.zone2", "TXT", 60, ["x"]⟩]⟩] rfl rfl⟩

/-- C5, as stated, fails: the backend holds the supported record `b.zone1` with no
TTL (zero), and the endpoint `Records` returns for it has TTL 0, not the default
600. -/
theorem Records_zero_ttl_counterexample :
    fake.supportedRecordType "A" = true ∧
    Records fake [⟨"b.zone1", "A", 0, ["9.9.9.9"]⟩] =
      (([⟨"b.zone1", ["9.9.9.9"], "A", 0⟩], none), [⟨"b.zone1", "A", 0, ["9.9.9.9"]⟩]) ∧
    (Records fake [⟨"b.zone1", "A", 0, ["9.9.9.9"]⟩]).1.1.map Endpoint.RecordTTL ≠
      [blueCatDefaultTTL] := by
  decide

/-- C5, amended: `Records` applies no default.  When the zone listing and every zone
fetch succeed, the TTLs of the endpoints returned are exactly the TTLs the backend
reports for the records of a supported type, in order: a record that reports a TTL
keeps it, and one that reports none (zero) gives an endpoint with TTL zero. -/
theorem Records_passes_ttl_through (d : Deps σ ε) (s s1 s2 : σ) (zones : List Zone)
    (zds : List ZoneData) (hz : d.zonesFiltered s = (Except.ok zones, s1))
    (hf : fetchAll d zones s1 = (Except.ok zds, s2)) :
    (Records d s).1.1.map Endpoint.RecordTTL =
      ((allRecords zds).filter (fun r => d.supportedRecordType r.Typ)).map Record.TTL := by
  rw [Records_of_fetch_ok d s s1 s2 zones zds hz hf]
  simp [supportedEndpoints, toEndpoint, NewEndpointWithTTL, Function.comp_def]

theorem Records_passes_ttl_through_witness :
    fake.zonesFiltered heldRecords = (Except.ok [⟨"1", "zone1"⟩, ⟨"2", "zone2"⟩], heldRecords) ∧
    (Records fake heldRecords).1.1.map Endpoint.RecordTTL = [0, 60] :=
  ⟨rfl,
    Records_passes_ttl_through fake heldRecords heldRecords heldRecords
      [⟨"1", "zone1"⟩, ⟨"2", "zone2"⟩]
      [⟨[⟨"b.zone1", "A", 0, ["9.9.9.9"]⟩, ⟨"m.zone1", "MX", 5, ["mail.zone1"]⟩]⟩,
        ⟨[⟨"c.zone2", "TXT", 60, ["x"]⟩]⟩] rfl rfl⟩

/-- C6: `Records` is all-or-nothing.  If the zone listing fails, or the listing
succeeds and some zone fetch fails, `Records` returns that error with a nil endpoint
list; whenever it returns an error the endpoint list is nil; and it returns a nil
error only if the listing and every zone fetch succeeded. -/
theorem Records_all_or_nothing (d : Deps σ ε) (s : σ) :
    (∀ e s1, d.zonesFiltered s = (Except.error e, s1) → Records d s = (([], some e), s1)) ∧
    (∀ zones s1 e s2, d.zonesFiltered s = (Except.ok zones, s1) →
      fetchAll d zones s1 = (Except.error e, s2) → Records d s = (([], some e), s2)) ∧
    (∀ e, (Records d s).1.2 = some e → (Records d s).1.1 = []) ∧
    ((Records d s).1.2 = none →
      ∃ zones s1 zds s2, d.zonesFiltered s = (Except.ok zones, s1) ∧
        fetchAll d zones s1 = (Except.ok zds, s2)) := by
  refine ⟨fun e s1 hz => Records_of_listing_error d s s1 e hz,
    fun zones s1 e s2 hz hf => Records_of_fetch_error d s s1 s2 zones e hz hf, ?_, ?_⟩
  · intro e he
    rcases hz : d.zonesFiltered s with ⟨err | zones, s1⟩
    · rw [Records_of_listing_error d s s1 err hz]
    · rcases hf : fetchAll d zones s1 with ⟨err | zds, s2⟩
      · rw [Records_of_fetch_error d s s1 s2 zones err hz hf]
      · rw [Records_of_fetch_ok d s s1 s2 zones zds hz hf] at he
        simp at he
  · intro hnone
    rcases hz : d.zonesFiltered s with ⟨err | zones, s1⟩
    · rw [Records_of_listing_error d s s1 err hz] at hnone
      simp at hnone
    · rcases hf : fetchAll d zones s1 with ⟨err | zds, s2⟩
      · rw [Records_of_fetch_error d s s1 s2 zones err hz hf] at hnone
        simp at hnone
      · exact ⟨zones, s1, zds, s2, rfl, hf⟩

theorem Records_all_or_nothing_witness :
    fetchAll fakeBroken [⟨"1", "zone1"⟩, ⟨"9", "broken"⟩] heldRecords =
      (Except.error "zone fetch failed", heldRecords) ∧
    Records fakeBroken heldRecords = (([], some "zone fetch failed"), heldRecords) :=
  ⟨rfl,
    (Records_all_or_nothing fakeBroken heldRecords).2.1 [⟨"1", "zone1"⟩, ⟨"9", "broken"⟩]
      heldRecords "zone fetch failed" heldRecords rfl rfl⟩

/-! ## The matcher: lemmas -/

theorem Capture.push_push (cap : Capture) (a b : List Char) :
    (cap.push a).push b = cap.push (a ++ b) := by
  unfold Capture.push
  by_cases h : cap.active = true <;> simp [h]

theorem firstDown_some {α : Type} (f : Nat → Option α) (n : Nat) (r : α)
    (h : firstDown f n = some r) : ∃ k, k ≤ n ∧ f k = some r := by
  induction n with
  | zero => exact ⟨0, le_refl 0, h⟩
  | succ n ih =>
    simp only [firstDown] at h
    cases hf : f (n + 1) with
    | some r1 =>
      rw [hf] at h
      simp only [Option.some.injEq] at h
      exact ⟨n + 1, le_refl _, by rw [hf, h]⟩
    | none =>
      rw [hf] at h
      obtain ⟨k, hk, hr⟩ := ih h
      exact ⟨k, Nat.le_succ_of_le hk, hr⟩

theorem firstDown_top {α : Type} (f : Nat → Option α) (n : Nat) (r : α) (h : f n = some r) :
    firstDown f n = some r := by
  cases n with
  | zero => exact h
  | succ n => simp [firstDown, h]

theorem firstDown_ge {α : Type} (f : Nat → Option α) (n k0 : Nat) (hk : k0 ≤ n)
    (h : (f k0).isSome = true) :
    ∃ k r, k0 ≤ k ∧ k ≤ n ∧ f k = some r ∧ firstDown f n = some r := by
  induction n with
  | zero =>
    have h0 : k0 = 0 := Nat.le_zero.mp hk
    subst h0
    obtain ⟨r, hr⟩ := Option.isSome_iff_exists.mp h
    exact ⟨0, r, le_refl 0, le_refl 0, hr, hr⟩
  | succ n ih =>
    cases hf : f (n + 1) with
    | some r => exact ⟨n + 1, r, hk, le_refl _, hf, firstDown_top f (n + 1) r hf⟩
    | none =>
      have hne : k0 ≠ n + 1 := by
        intro he
        rw [he, hf] at h
        simp at h
      have hk1 : k0 ≤ n := by omega
      obtain ⟨k, r, h1, h2, h3, h4⟩ := ih hk1
      refine ⟨k, r, h1, Nat.le_succ_of_le h2, h3, ?_⟩
      simp only [firstDown, hf]
      exact h4

theorem all_take_of_le_takeWhile (p : Char → Bool) (s : List Char) (k : Nat)
    (hk : k ≤ (s.takeWhile p).length) : ∀ c ∈ s.take k, p c = true := by
  induction s generalizing k with
  | nil => simp
  | cons x rest ih =>
    cases k with
    | zero => simp
    | succ k =>
      by_cases hx : p x = true
      · simp only [List.takeWhile_cons, hx, if_true, List.length_cons] at hk
        intro c hc
        simp only [List.take_succ_cons, List.mem_cons] at hc
        rcases hc with rfl | hc
        · exact hx
        · exact ih k (by omega) c hc
      · simp [List.takeWhile_cons, hx] at hk

theorem length_le_takeWhile (p : Char → Bool) (a rest : List Char)
    (ha : ∀ c ∈ a, p c = true) : a.length ≤ ((a ++ rest).takeWhile p).length := by
  induction a with
  | nil => simp
  | cons x a ih =>
    have hx : p x = true := ha x (List.mem_cons_self x a)
    simp only [List.cons_append, List.takeWhile_cons, hx, if_true, List.length_cons]
    exact Nat.succ_le_succ (ih (fun c hc => ha c (List.mem_cons_of_mem x hc)))

theorem matchHere_star (p : Char → Bool) (items : List Item) (bot : Bool) (s : List Char)
    (cap : Capture) :
    matchHere (Item.star p :: items) bot s cap =
      firstDown (fun k => matchHere items (bot && k == 0) (s.drop k) (cap.push (s.take k)))
        (s.takeWhile p).length := by
  rw [matchHere]

theorem matchHere_star_sound (p : Char → Bool) (items : List Item) (bot : Bool)
    (s : List Char) (cap : Capture) (r : List Char × List Char)
    (h : matchHere (Item.star p :: items) bot s cap = some r) :
    ∃ a rest bot1, s = a ++ rest ∧ (∀ c ∈ a, p c = true) ∧
      matchHere items bot1 rest (cap.push a) = some r := by
  rw [matchHere_star] at h
  obtain ⟨k, hk, hr⟩ := firstDown_some _ _ _ h
  exact ⟨s.take k, s.drop k, _, (List.take_append_drop k s).symm,
    all_take_of_le_takeWhile p s k hk, hr⟩

theorem matchHere_star_ge (p : Char → Bool) (items : List Item) (bot : Bool)
    (a rest : List Char) (cap : Capture) (ha : ∀ c ∈ a, p c = true)
    (h : (matchHere items (bot && a.length == 0) rest (cap.push a)).isSome = true) :
    ∃ k r, a.length ≤ k ∧ k ≤ ((a ++ rest).takeWhile p).length ∧
      matchHere items (bot && k == 0) ((a ++ rest).drop k) (cap.push ((a ++ rest).take k)) =
        some r ∧
      matchHere (Item.star p :: items) bot (a ++ rest) cap = some r := by
  rw [matchHere_star]
  apply firstDown_ge _ _ a.length (length_le_takeWhile p a rest ha)
  simpa using h

theorem matchHere_star_complete (p : Char → Bool) (items : List Item) (bot : Bool)
    (a rest : List Char) (cap : Capture) (ha : ∀ c ∈ a, p c = true)
    (h : (matchHere items (bot && a.length == 0) rest (cap.push a)).isSome = true) :
    (matchHere (Item.star p :: items) bot (a ++ rest) cap).isSome = true := by
  obtain ⟨k, r, _, _, _, hr⟩ := matchHere_star_ge p items bot a rest cap ha h
  rw [hr]
  rfl

theorem matchHere_plus_sound (p : Char → Bool) (items : List Item) (bot : Bool)
    (s : List Char) (cap : Capture) (r : List Char × List Char)
    (h : matchHere (Item.plus p :: items) bot s cap = some r) :
    ∃ a rest, a ≠ [] ∧ s = a ++ rest ∧ (∀ c ∈ a, p c = true) ∧
      matchHere items false rest (cap.push a) = some r := by
  rw [matchHere] at h
  cases hn : (s.takeWhile p).length with
  | zero => simp [hn] at h
  | succ n =>
    simp only [hn] at h
    obtain ⟨k, hk, hr⟩ := firstDown_some _ _ _ h
    refine ⟨s.take (k + 1), s.drop (k + 1), ?_, (List.take_append_drop (k + 1) s).symm,
      all_take_of_le_takeWhile p s (k + 1) (by omega), hr⟩
    intro hnil
    have hlen : (s.takeWhile p).length ≤ s.length := (List.takeWhile_prefix p).length_le
    have := congrArg List.length hnil
    simp only [List.length_take, List.length_nil] at this
    omega

theorem matchHere_plus_complete (p : Char → Bool) (items : List Item) (bot : Bool)
    (a rest : List Char) (cap : Capture) (hne : a ≠ []) (ha : ∀ c ∈ a, p c = true)
    (h : (matchHere items false rest (cap.push a)).isSome = true) :
    (matchHere (Item.plus p :: items) bot (a ++ rest) cap).isSome = true := by
  rw [matchHere]
  have hle := length_le_takeWhile p a rest ha
  have hpos : 0 < a.length := List.length_pos.mpr hne
  cases hn : ((a ++ rest).takeWhile p).length with
  | zero => omega
  | succ n =>
    simp only
    have hk : a.length - 1 ≤ n := by omega
    have hsucc : a.length - 1 + 1 = a.length := by omega
    obtain ⟨k, r, _, _, _, hr⟩ := firstDown_ge
      (fun k => matchHere items false ((a ++ rest).drop (k + 1))
        (cap.push ((a ++ rest).take (k + 1)))) n (a.length - 1) hk
      (by simpa [hsucc] using h)
    rw [hr]
    rfl

theorem matchHere_lits_sound (w : List Char) (items : List Item) (bot : Bool) (s : List Char)
    (cap : Capture) (r : List Char × List Char)
    (h : matchHere (w.map Item.lit ++ items) bot s cap = some r) :
    ∃ rest bot1, s = w ++ rest ∧ matchHere items bot1 rest (cap.push w) = some r := by
  induction w generalizing bot s cap with
  | nil =>
    refine ⟨s, bot, rfl, ?_⟩
    have : cap.push [] = cap := by
      obtain ⟨act, txt⟩ := cap
      cases act <;> simp [Capture.push]
    rw [this]
    exact h
  | cons x w ih =>
    simp only [List.map_cons, List.cons_append] at h
    cases s with
    | nil => simp [matchHere] at h
    | cons y s1 =>
      rw [matchHere] at h
      by_cases hy : y = x
      · simp only [hy, if_true] at h
        obtain ⟨rest, bot1, hs, hr⟩ := ih false s1 (cap.push [x]) h
        refine ⟨rest, bot1, by simp [hy, hs], ?_⟩
        rw [Capture.push_push] at hr
        exact hr
      · simp [hy] at h

theorem matchHere_lits_append (x : Char) (w : List Char) (items : List Item) (bot : Bool)
    (rest : List Char) (cap : Capture) :
    matchHere ((x :: w).map Item.lit ++ items) bot (x :: w ++ rest) cap =
      matchHere items false rest (cap.push (x :: w)) := by
  induction w generalizing x bot cap with
  | nil =>
    simp only [List.map_cons, List.map_nil, List.cons_append, List.nil_append]
    rw [matchHere]
    simp
  | cons y w ih =>
    have h := ih y false (cap.push [x])
    simp only [List.map_cons, List.cons_append] at h ⊢
    rw [matchHere]
    simp only [if_true]
    rw [h, Capture.push_push]
    rfl

theorem matchHere_nil (bot : Bool) (s : List Char) (cap : Capture) :
    matchHere [] bot s cap = some (cap.text, s) := by
  rw [matchHere]

theorem matchHere_gopen (items : List Item) (bot : Bool) (s : List Char) (cap : Capture) :
    matchHere (Item.gopen :: items) bot s cap =
      matchHere items bot s { active := true, text := [] } := by
  rw [matchHere]

theorem matchHere_gclose (items : List Item) (bot : Bool) (s : List Char) (cap : Capture) :
    matchHere (Item.gclose :: items) bot s cap =
      matchHere items bot s { cap with active := false } := by
  rw [matchHere]

theorem matchHere_bol (items : List Item) (bot : Bool) (s : List Char) (cap : Capture) :
    matchHere (Item.bol :: items) bot s cap =
      if bot then matchHere items bot s cap else none := by
  rw [matchHere]

theorem matchHere_eol (items : List Item) (bot : Bool) (s : List Char) (cap : Capture) :
    matchHere (Item.eol :: items) bot s cap =
      if s = [] then matchHere items bot s cap else none := by
  rw [matchHere]

theorem sessionToken_unfold :
    sessionToken =
      Item.bol :: Item.star isDot :: Item.gopen ::
        ("BAMAuthToken:".toList.map Item.lit ++
          [Item.plus isSpace, Item.plus isWordEq, Item.gclose, Item.plus isSpace,
            Item.star isDot, Item.eol]) := rfl

theorem sessionToken_sound (bot : Bool) (s g rest : List Char)
    (h : matchHere sessionToken bot s noCapture = some (g, rest)) :
    bot = true ∧ rest = [] ∧ HasTokenMarker s ∧
      ∃ ws w : List Char, ws ≠ [] ∧ (∀ c ∈ ws, isSpace c = true) ∧ w ≠ [] ∧
        (∀ c ∈ w, isWordEq c = true) ∧ g = "BAMAuthToken:".toList ++ (ws ++ w) := by
  rw [sessionToken_unfold, matchHere_bol] at h
  cases bot with
  | false => simp at h
  | true =>
    simp only [if_true] at h
    obtain ⟨a, s1, bot1, hs, ha, h⟩ := matchHere_star_sound _ _ _ _ _ _ h
    rw [matchHere_gopen] at h
    obtain ⟨s2, bot2, hs1, h⟩ := matchHere_lits_sound _ _ _ _ _ _ h
    obtain ⟨ws, s3, hwsne, hs2, hws, h⟩ := matchHere_plus_sound _ _ _ _ _ _ h
    obtain ⟨w, s4, hwne, hs3, hw, h⟩ := matchHere_plus_sound _ _ _ _ _ _ h
    rw [matchHere_gclose] at h
    obtain ⟨ws2, s5, hws2ne, hs4, hws2, h⟩ := matchHere_plus_sound _ _ _ _ _ _ h
    obtain ⟨b, s6, bot3, hs5, hb, h⟩ := matchHere_star_sound _ _ _ _ _ _ h
    rw [matchHere_eol] at h
    by_cases hs6 : s6 = []
    · simp only [hs6, if_true, matchHere_nil, Option.some.injEq, Prod.mk.injEq] at h
      obtain ⟨hg, hrest⟩ := h
      refine ⟨rfl, hrest.symm, ⟨a, ws, w, ws2, b, ?_, ha, hwsne, hws, hwne, hw, hws2ne,
        hws2, hb⟩, ws, w, hwsne, hws, hwne, hw, ?_⟩
      · rw [hs, hs1, hs2, hs3, hs4, hs5, hs6, List.append_nil]
      · rw [← hg]
        simp [Capture.push]
    · simp [hs6] at h

theorem sessionToken_complete (s : List Char) (h : HasTokenMarker s) :
    (matchHere sessionToken true s noCapture).isSome = true := by
  obtain ⟨a, ws, w, ws2, b, hs, ha, hwsne, hws, hwne, hw, hws2ne, hws2, hb⟩ := h
  have hmark : "BAMAuthToken:".toList = 'B' :: "AMAuthToken:".toList := rfl
  have hb0 := List.append_nil b
  rw [hs, sessionToken_unfold, matchHere_bol]
  simp only [if_true]
  apply matchHere_star_complete _ _ _ _ _ _ ha
  rw [matchHere_gopen, hmark, matchHere_lits_append]
  apply matchHere_plus_complete _ _ _ _ _ _ hwsne hws
  apply matchHere_plus_complete _ _ _ _ _ _ hwne hw
  rw [matchHere_gclose]
  apply matchHere_plus_complete _ _ _ _ _ _ hws2ne hws2
  rw [← hb0]
  apply matchHere_star_complete _ _ _ _ _ _ hb
  rw [matchHere_eol]
  simp [matchHere_nil]

theorem findSubmatch_bol_false (items : List Item) (s : List Char) :
    findSubmatch (Item.bol :: items) false s = [] := by
  induction s with
  | nil => simp [findSubmatch, matchHere_bol]
  | cons c s ih => simp [findSubmatch, matchHere_bol, ih]

theorem findSubmatch_sessionToken_false (s : List Char) :
    findSubmatch sessionToken false s = [] := by
  rw [sessionToken_unfold]
  exact findSubmatch_bol_false _ s

theorem FindStringSubmatch_sessionToken_none (s : List Char)
    (h : matchHere sessionToken true s noCapture = none) :
    FindStringSubmatch sessionToken s = [] := by
  unfold FindStringSubmatch
  cases s with
  | nil => simp [findSubmatch, h]
  | cons c s => simp [findSubmatch, h, findSubmatch_sessionToken_false]

theorem FindStringSubmatch_sessionToken_some (s g rest : List Char)
    (h : matchHere sessionToken true s noCapture = some (g, rest)) :
    ∃ full, FindStringSubmatch sessionToken s = [full, g] := by
  unfold FindStringSubmatch
  cases s with
  | nil => exact ⟨[], by simp [findSubmatch, h]⟩
  | cons c s =>
    exact ⟨(c :: s).take ((c :: s).length - rest.length), by simp only [findSubmatch, h]⟩

/-! ## The sanitizing replacement: lemmas -/

theorem take_length_takeWhile (p : Char → Bool) (s : List Char) :
    s.take (s.takeWhile p).length = s.takeWhile p := by
  induction s with
  | nil => simp
  | cons x s ih =>
    by_cases hx : p x = true
    · simp [List.takeWhile_cons, hx, ih]
    · simp [List.takeWhile_cons, hx]

theorem drop_length_takeWhile (p : Char → Bool) (s : List Char) :
    s.drop (s.takeWhile p).length = s.dropWhile p := by
  induction s with
  | nil => simp
  | cons x s ih =>
    by_cases hx : p x = true
    · simp [List.takeWhile_cons, List.dropWhile_cons, hx, ih]
    · simp [List.takeWhile_cons, List.dropWhile_cons, hx]

theorem takeWhile_of_all (p : Char → Bool) (s : List Char) (h : ∀ c ∈ s, p c = true) :
    s.takeWhile p = s ∧ s.dropWhile p = [] := by
  induction s with
  | nil => simp
  | cons x s ih =>
    have hx : p x = true := h x (List.mem_cons_self x s)
    have := ih (fun c hc => h c (List.mem_cons_of_mem x hc))
    simp [List.takeWhile_cons, List.dropWhile_cons, hx, this]

theorem matchHere_group_to_end (p : Char → Bool) (bot : Bool) (s t : List Char) :
    matchHere [Item.star p, Item.gclose] bot s { active := true, text := t } =
      some (t ++ s.takeWhile p, s.dropWhile p) := by
  rw [matchHere_star]
  apply firstDown_top
  simp only [matchHere_gclose, matchHere_nil, take_length_takeWhile, drop_length_takeWhile,
    Capture.push, if_true]

theorem connErr_unfold :
    connErr =
      ('G' :: "et https".toList).map Item.lit ++
        [Item.star isDot, Item.lit ':', Item.plus isSpace, Item.gopen, Item.star isDot,
          Item.gclose] := rfl

theorem connErr_tail_sound (bot : Bool) (s : List Char) (cap : Capture)
    (r : List Char × List Char)
    (h : matchHere [Item.lit ':', Item.plus isSpace, Item.gopen, Item.star isDot, Item.gclose]
      bot s cap = some r) :
    ∃ a rest : List Char, a ≠ [] ∧ s = ':' :: (a ++ rest) ∧
      r = (rest.takeWhile isDot, rest.dropWhile isDot) := by
  obtain ⟨s1, bot1, hs, h⟩ := matchHere_lits_sound [':'] _ bot s cap r h
  obtain ⟨a, rest, hane, hs1, _, h⟩ := matchHere_plus_sound _ _ _ _ _ _ h
  rw [matchHere_gopen, matchHere_group_to_end] at h
  simp only [List.nil_append, Option.some.injEq] at h
  exact ⟨a, rest, hane, by rw [hs, hs1]; rfl, h.symm⟩

theorem connErr_tail_complete (bot : Bool) (rest : List Char) (cap : Capture) :
    (matchHere [Item.lit ':', Item.plus isSpace, Item.gopen, Item.star isDot, Item.gclose]
      bot (':' :: ' ' :: rest) cap).isSome = true := by
  have h := matchHere_lits_append ':' []
    [Item.plus isSpace, Item.gopen, Item.star isDot, Item.gclose] bot (' ' :: rest) cap
  simp only [List.map_cons, List.map_nil, List.cons_append, List.nil_append] at h
  rw [h]
  have hsp : (' ' :: rest) = [' '] ++ rest := rfl
  rw [hsp]
  apply matchHere_plus_complete _ _ _ _ _ _ (by simp) (by simp [isSpace])
  rw [matchHere_gopen, matchHere_group_to_end]
  rfl

theorem replaceAll_skip_all (re : List Item) (bot : Bool) (s : List Char) (skip : Nat)
    (h : s.length ≤ skip) : replaceAll re bot s skip = [] := by
  induction s generalizing bot skip with
  | nil => cases skip <;> simp [replaceAll]
  | cons c s ih =>
    cases skip with
    | zero => simp at h
    | succ k =>
      simp only [replaceAll]
      exact ih false k (by simpa using h)

theorem replaceAll_of_match_all (re : List Item) (bot : Bool) (c : Char) (s t : List Char)
    (hm : matchHere re bot (c :: s) noCapture = some (t, [])) :
    replaceAll re bot (c :: s) 0 = t := by
  rw [replaceAll, hm]
  simp only [List.length_nil, Nat.sub_zero, List.length_cons]
  rw [if_neg (Nat.succ_ne_zero _), replaceAll_skip_all _ _ _ _ (by simp)]
  simp

theorem matchHere_connErr (u rest : List Char) (hu : ∀ c ∈ u, isDot c = true)
    (hrest : ∀ c ∈ rest, isDot c = true) :
    ∃ t : List Char, t <:+ rest ∧
      matchHere connErr true ('G' :: "et https".toList ++ (u ++ ':' :: ' ' :: rest)) noCapture =
        some (t, []) := by
  rw [connErr_unfold, matchHere_lits_append]
  obtain ⟨k, r, hk, _, hr, hm⟩ := matchHere_star_ge isDot
    [Item.lit ':', Item.plus isSpace, Item.gopen, Item.star isDot, Item.gclose] false u
    (':' :: ' ' :: rest) (noCapture.push ('G' :: "et https".toList)) hu
    (connErr_tail_complete _ rest _)
  rw [hm]
  obtain ⟨a, rest1, hane, hy, hr1⟩ := connErr_tail_sound _ _ _ _ hr
  have hdrop : (u ++ ':' :: ' ' :: rest).drop k = (':' :: ' ' :: rest).drop (k - u.length) := by
    rw [List.drop_append_eq_append_drop, List.drop_of_length_le hk, List.nil_append]
  rw [hdrop] at hy
  have hsuf1 : rest1 <:+ (':' :: ' ' :: rest) := by
    have h1 : (':' :: ' ' :: rest).drop (k - u.length) <:+ (':' :: ' ' :: rest) :=
      List.drop_suffix _ _
    rw [hy] at h1
    exact (List.suffix_append (':' :: a) rest1).trans h1
  have hsuf2 : rest <:+ (':' :: ' ' :: rest) := List.suffix_append [':', ' '] rest
  have hlen : rest1.length ≤ rest.length := by
    have h2 := congrArg List.length hy
    have h3 : 0 < a.length := List.length_pos.mpr hane
    simp only [List.length_drop, List.length_cons, List.length_append] at h2
    omega
  have hsuf : rest1 <:+ rest := List.suffix_of_suffix_length_le hsuf1 hsuf2 hlen
  have hall : ∀ c ∈ rest1, isDot c = true := fun c hc => hrest c (hsuf.subset hc)
  obtain ⟨htw, hdw⟩ := takeWhile_of_all isDot rest1 hall
  rw [htw, hdw] at hr1
  exact ⟨rest1, hsuf, by rw [hr1]⟩

theorem ReplaceAllString_connErr (u rest : List Char) (hu : ∀ c ∈ u, isDot c = true)
    (hrest : ∀ c ∈ rest, isDot c = true) :
    ∃ t : List Char, t <:+ rest ∧
      ReplaceAllString connErr ('G' :: "et https".toList ++ (u ++ ':' :: ' ' :: rest)) = t := by
  obtain ⟨t, hsuf, hm⟩ := matchHere_connErr u rest hu hrest
  exact ⟨t, hsuf, replaceAll_of_match_all connErr true 'G' _ t hm⟩

/-! ## The login exchange: properties -/

/-- C7: when the login request comes back with a response, `getAuthToken` either fails,
returning the empty string with an error (exactly when the text has no match of the
token marker pattern), or succeeds with a token that is `BAMAuthToken:` followed by
at least one white-space character and at least one character of `[A-Za-z0-9_=]`;
a returned token is never empty. -/
theorem getAuthToken_token_nonempty (get : List Char → Except (List Char) Response)
    (restAPIPrefix server user pass : List Char) (resp : Response)
    (hget : get (loginReq restAPIPrefix server user pass) = Except.ok resp) :
    (¬ HasTokenMarker resp.String ∧
      getAuthToken get restAPIPrefix server user pass =
        ([], some (resp.Body ++ " - getAuthToken token parse".toList))) ∨
    (HasTokenMarker resp.String ∧
      ∃ ws w : List Char, ws ≠ [] ∧ (∀ c ∈ ws, isSpace c = true) ∧ w ≠ [] ∧
        (∀ c ∈ w, isWordEq c = true) ∧
        "BAMAuthToken:".toList ++ (ws ++ w) ≠ [] ∧
        getAuthToken get restAPIPrefix server user pass =
          ("BAMAuthToken:".toList ++ (ws ++ w), none)) := by
  simp only [getAuthToken, hget, extractToken]
  cases hm : matchHere sessionToken true resp.String noCapture with
  | none =>
    left
    refine ⟨?_, ?_⟩
    · intro hmark
      have := sessionToken_complete resp.String hmark
      rw [hm] at this
      simp at this
    · rw [FindStringSubmatch_sessionToken_none _ hm]
      simp
  | some r =>
    right
    obtain ⟨g, rest⟩ := r
    obtain ⟨_, _, hmark, ws, w, hwsne, hws, hwne, hw, hg⟩ := sessionToken_sound _ _ _ _ hm
    obtain ⟨full, hfull⟩ := FindStringSubmatch_sessionToken_some _ _ _ hm
    refine ⟨hmark, ws, w, hwsne, hws, hwne, hw, ?_, ?_⟩
    · intro hnil
      have := congrArg List.length hnil
      have hpos : 0 < ws.length := List.length_pos.mpr hwsne
      simp only [List.length_append, List.length_nil] at this
      omega
    · rw [hfull, hg]
      simp

theorem getAuthToken_token_nonempty_witness :
    getOk (loginReq blueCatRestAPIPrefix.toList "bam.example".toList "admin".toList
      "s3cret".toList) = Except.ok { String := loginBody, Body := loginBody } ∧
    getAuthToken getOk blueCatRestAPIPrefix.toList "bam.example".toList "admin".toList
      "s3cret".toList = ("BAMAuthToken: 2Z5ZmTLT=".toList, none) ∧
    ((¬ HasTokenMarker loginBody ∧
      getAuthToken getOk blueCatRestAPIPrefix.toList "bam.example".toList "admin".toList
        "s3cret".toList = ([], some (loginBody ++ " - getAuthToken token parse".toList))) ∨
    (HasTokenMarker loginBody ∧
      ∃ ws w : List Char, ws ≠ [] ∧ (∀ c ∈ ws, isSpace c = true) ∧ w ≠ [] ∧
        (∀ c ∈ w, isWordEq c = true) ∧
        "BAMAuthToken:".toList ++ (ws ++ w) ≠ [] ∧
        getAuthToken getOk blueCatRestAPIPrefix.toList "bam.example".toList "admin".toList
          "s3cret".toList = ("BAMAuthToken:".toList ++ (ws ++ w), none))) :=
  ⟨rfl, by decide,
    getAuthToken_token_nonempty getOk blueCatRestAPIPrefix.toList "bam.example".toList
      "admin".toList "s3cret".toList { String := loginBody, Body := loginBody } rfl⟩

set_option maxRecDepth 100000

/-- C8: `getAuthToken` evaluated on a network-level failure that words the error with
the URL quoted (`Get "<url>": EOF`).  The pattern `Get https.*:\s+(.*)` matches
nowhere in it, the replacement leaves the message as it is, and the error text
returned holds the login URL and the password `s3cret`. -/
theorem getAuthToken_quoted_url_leak :
    getQuoted (loginReq blueCatRestAPIPrefix.toList "bam.example".toList "admin".toList
      "s3cret".toList) =
      Except.error "Get \"https://bam.example/Services/REST/v1/login?username=admin&password=s3cret\": EOF".toList ∧
    ReplaceAllString connErr
      "Get \"https://bam.example/Services/REST/v1/login?username=admin&password=s3cret\": EOF".toList =
      "Get \"https://bam.example/Services/REST/v1/login?username=admin&password=s3cret\": EOF".toList ∧
    getAuthToken getQuoted blueCatRestAPIPrefix.toList "bam.example".toList "admin".toList
      "s3cret".toList =
      ([], some ("Get \"https://bam.example/Services/REST/v1/login?username=admin&password=s3cret\": EOF - getAuthToken login".toList)) ∧
    "s3cret".toList <:+:
      "Get \"https://bam.example/Services/REST/v1/login?username=admin&password=s3cret\": EOF - getAuthToken login".toList ∧
    loginReq blueCatRestAPIPrefix.toList "bam.example".toList "admin".toList "s3cret".toList <:+:
      "Get \"https://bam.example/Services/REST/v1/login?username=admin&password=s3cret\": EOF - getAuthToken login".toList := by
  refine ⟨rfl, by decide, by decide, ?_, ?_⟩
  · exact ⟨"Get \"https://bam.example/Services/REST/v1/login?username=admin&password=".toList,
      "\": EOF - getAuthToken login".toList, by decide⟩
  · exact ⟨"Get \"".toList, "\": EOF - getAuthToken login".toList, by decide⟩

/-- The wording the replacement does handle: when the transport error message is
`Get <login URL>: <rest>`, the URL unquoted, and neither the URL nor `<rest>` holds a
line feed, the error text `getAuthToken` returns is `<t> - getAuthToken login` with
`<t>` a suffix of `<rest>`; so if the password does not occur in
`<rest> - getAuthToken login`, neither the password nor the login URL occurs in the
error text. -/
theorem getAuthToken_sanitizes_get_error (get : List Char → Except (List Char) Response)
    (restAPIPrefix server user pass rest : List Char)
    (hurl : ∀ c ∈ loginReq restAPIPrefix server user pass, c ≠ '\n')
    (hrest : ∀ c ∈ rest, c ≠ '\n')
    (hget : get (loginReq restAPIPrefix server user pass) =
      Except.error ("Get ".toList ++ loginReq restAPIPrefix server user pass ++ ": ".toList ++ rest)) :
    ∃ t : List Char, t <:+ rest ∧
      getAuthToken get restAPIPrefix server user pass =
        ([], some (t ++ " - getAuthToken login".toList)) ∧
      (¬ pass <:+: rest ++ " - getAuthToken login".toList →
        ¬ pass <:+: t ++ " - getAuthToken login".toList ∧
        ¬ loginReq restAPIPrefix server user pass <:+: t ++ " - getAuthToken login".toList) := by
  have hlr : loginReq restAPIPrefix server user pass =
      "https".toList ++ ("://".toList ++ server ++ "/".toList ++ restAPIPrefix ++
        "/login?username=".toList ++ user ++ "&password=".toList ++ pass) := by
    have h1 : "https://".toList = "https".toList ++ "://".toList := rfl
    simp only [loginReq, h1, List.append_assoc]
  have hmsg : "Get ".toList ++ loginReq restAPIPrefix server user pass ++ ": ".toList ++ rest =
      'G' :: "et https".toList ++ (("://".toList ++ server ++ "/".toList ++ restAPIPrefix ++
        "/login?username=".toList ++ user ++ "&password=".toList ++ pass) ++ ':' :: ' ' :: rest) := by
    have h1 : "Get ".toList = ['G', 'e', 't', ' '] := rfl
    have h2 : "https".toList = ['h', 't', 't', 'p', 's'] := rfl
    have h3 : "et https".toList = ['e', 't', ' ', 'h', 't', 't', 'p', 's'] := rfl
    have h4 : ": ".toList = [':', ' '] := rfl
    rw [hlr, h1, h2, h3, h4]
    simp only [List.append_assoc, List.cons_append, List.nil_append]
  have hu : ∀ c ∈ "://".toList ++ server ++ "/".toList ++ restAPIPrefix ++
      "/login?username=".toList ++ user ++ "&password=".toList ++ pass, isDot c = true := by
    intro c hc
    have := hurl c (by rw [hlr]; exact List.mem_append_right _ hc)
    simp [isDot, this]
  have hr : ∀ c ∈ rest, isDot c = true := by
    intro c hc
    have := hrest c hc
    simp [isDot, this]
  obtain ⟨t, hsuf, hrep⟩ := ReplaceAllString_connErr _ rest hu hr
  refine ⟨t, hsuf, ?_, ?_⟩
  · simp only [getAuthToken, hget, hmsg, hrep]
  · intro hpass
    have hsuf2 : t ++ " - getAuthToken login".toList <:+ rest ++ " - getAuthToken login".toList := by
      obtain ⟨pre, hpre⟩ := hsuf
      exact ⟨pre, by rw [← hpre, List.append_assoc]⟩
    have hp : ¬ pass <:+: t ++ " - getAuthToken login".toList :=
      fun h => hpass (h.trans hsuf2.isInfix)
    refine ⟨hp, fun h => hp (List.IsInfix.trans ?_ h)⟩
    exact (List.suffix_append _ pass).isInfix

theorem getAuthToken_sanitizes_get_error_witness :
    (∀ c ∈ loginReq blueCatRestAPIPrefix.toList "bam.example".toList "admin".toList
      "s3cret".toList, c ≠ '\n') ∧
    getAuthToken getRefused blueCatRestAPIPrefix.toList "bam.example".toList "admin".toList
      "s3cret".toList = ([], some "connection refused - getAuthToken login".toList) ∧
    ¬ "s3cret".toList <:+: "connection refused - getAuthToken login".toList ∧
    ∃ t : List Char, t <:+ "dial tcp 10.0.0.1:443: connect: connection refused".toList ∧
      getAuthToken getRefused blueCatRestAPIPrefix.toList "bam.example".toList "admin".toList
        "s3cret".toList = ([], some (t ++ " - getAuthToken login".toList)) ∧
      (¬ "s3cret".toList <:+:
          "dial tcp 10.0.0.1:443: connect: connection refused".toList ++
            " - getAuthToken login".toList →
        ¬ "s3cret".toList <:+: t ++ " - getAuthToken login".toList ∧
        ¬ loginReq blueCatRestAPIPrefix.toList "bam.example".toList "admin".toList
            "s3cret".toList <:+: t ++ " - getAuthToken login".toList) :=
  ⟨by decide, by decide, by decide,
    getAuthToken_sanitizes_get_error getRefused blueCatRestAPIPrefix.toList "bam.example".toList
      "admin".toList "s3cret".toList "dial tcp 10.0.0.1:443: connect: connection refused".toList
      (by decide) (by decide) rfl⟩

end BlueCat
